import Mathlib

/-!
# Verification of the AI-Researcher pipeline core

A shallow embedding of the algorithmic core of the AI-Researcher repository:
Python strings are modelled as lists of Unicode codepoints (`PyStr := List Nat`,
ASCII semantics for the character classes the code uses), Python floats as
rationals, Python `dict`s as insertion-ordered association lists, and each
fallible operation as `Except`/`Option`.  Network calls (the LLM providers and
the literature sources) are modelled as explicit oracles passed to the embedded
functions, so that "the provider was called n times" and "attempt i returned r"
are expressible.
-/

namespace AIResearcher

/-! ## Python string model (`src/modules/multi_source_search.py` helpers)

A Python `str` is a sequence of codepoints.  The repository's string
processing (`normalize_title`, `str.strip`, `str.lower`) only distinguishes
ASCII letters/digits/underscore and whitespace, so the character classes below
follow Python's ASCII semantics. -/

/-- A Python string as its list of codepoints. -/
abbrev PyStr := List Nat

/-- Embed a Lean string literal as a `PyStr`. -/
def pystr (s : String) : PyStr := s.data.map Char.toNat

/-- Python `\s` (ASCII): space, tab, newline, carriage return, vertical tab, form feed. -/
def isSpaceB (c : Nat) : Bool :=
  c == 32 || c == 9 || c == 10 || c == 13 || c == 11 || c == 12

/-- Python `\w` (ASCII): letters, digits, underscore. -/
def isWordB (c : Nat) : Bool :=
  (48 ≤ c && c ≤ 57) || (65 ≤ c && c ≤ 90) || (97 ≤ c && c ≤ 122) || c == 95

/-- Python `str.lower` on one codepoint (ASCII range, as the titles and enum
values handled by the code are ASCII). -/
def pyLowerChar (c : Nat) : Nat :=
  if 65 ≤ c ∧ c ≤ 90 then c + 32 else c

/-- Python `str.lower`. -/
def pyLower (s : PyStr) : PyStr := s.map pyLowerChar

/-- The characters kept by `re.sub(r'[^\w\s]', '', title)`: word characters and
whitespace survive, everything else is deleted. -/
def keepB (c : Nat) : Bool := isWordB c || isSpaceB c

/-- `re.sub(r'\s+', ' ', title)`: every maximal run of whitespace becomes one
space.  The boolean flag records whether the previously scanned character was
whitespace (i.e. whether we are inside a run that already emitted its space). -/
def collapseWSAux : Bool → PyStr → PyStr
  | _, [] => []
  | prevSpace, c :: cs =>
    if isSpaceB c then
      if prevSpace then collapseWSAux true cs
      else 32 :: collapseWSAux true cs
    else c :: collapseWSAux false cs

/-- `re.sub(r'\s+', ' ', title)`. -/
def collapseWS (s : PyStr) : PyStr := collapseWSAux false s

/-- Python `str.strip()`: drop whitespace from both ends. -/
def pyStrip (s : PyStr) : PyStr :=
  (s.dropWhile isSpaceB).rdropWhile isSpaceB

/-- `normalize_title` (src/modules/multi_source_search.py lines 139-158):
lower-case, delete `[^\w\s]`, collapse `\s+` to a single space, strip. -/
def normalize_title (title : PyStr) : PyStr :=
  pyStrip (collapseWS ((pyLower title).filter keepB))

/-! ### Character-level lemmas -/

theorem pyLowerChar_idem (c : Nat) : pyLowerChar (pyLowerChar c) = pyLowerChar c := by
  unfold pyLowerChar
  split_ifs with h1 h2 <;> omega

theorem isSpaceB_pyLowerChar (c : Nat) : isSpaceB (pyLowerChar c) = isSpaceB c := by
  unfold pyLowerChar isSpaceB
  split_ifs with h
  · have h32 : ¬ (c + 32 == 32 || c + 32 == 9 || c + 32 == 10 || c + 32 == 13 ||
        c + 32 == 11 || c + 32 == 12) = true := by
      simp only [Bool.or_eq_true, beq_iff_eq]
      omega
    have hc : ¬ (c == 32 || c == 9 || c == 10 || c == 13 || c == 11 || c == 12) = true := by
      simp only [Bool.or_eq_true, beq_iff_eq]
      omega
    simp only [Bool.not_eq_true] at h32 hc
    rw [h32, hc]
  · rfl

theorem keepB_space : keepB 32 = true := by decide

theorem isSpaceB_32 : isSpaceB 32 = true := by decide

/-! ### Structure of `collapseWS` output -/

/-- Every character emitted by `collapseWSAux` is either the space it inserts
or a non-whitespace character of the input. -/
theorem mem_collapseWSAux {c : Nat} :
    ∀ (b : Bool) (l : PyStr), c ∈ collapseWSAux b l →
      c = 32 ∨ (c ∈ l ∧ isSpaceB c = false) := by
  intro b l
  induction l generalizing b with
  | nil => intro h; simp [collapseWSAux] at h
  | cons x xs ih =>
    intro h
    by_cases hx : isSpaceB x = true
    · cases b with
      | true =>
        simp only [collapseWSAux, hx, if_pos, if_true] at h
        rcases ih true h with h32 | ⟨hm, hns⟩
        · exact Or.inl h32
        · exact Or.inr ⟨List.mem_cons_of_mem _ hm, hns⟩
      | false =>
        simp only [collapseWSAux, hx, if_pos, if_true] at h
        rcases List.mem_cons.1 h with h32 | hrest
        · exact Or.inl h32
        · rcases ih true hrest with h32 | ⟨hm, hns⟩
          · exact Or.inl h32
          · exact Or.inr ⟨List.mem_cons_of_mem _ hm, hns⟩
    · simp only [collapseWSAux, hx, if_neg, if_false] at h
      rcases List.mem_cons.1 h with hcx | hrest
      · subst hcx
        exact Or.inr ⟨List.mem_cons_self _ _, by simpa using hx⟩
      · rcases ih false hrest with h32 | ⟨hm, hns⟩
        · exact Or.inl h32
        · exact Or.inr ⟨List.mem_cons_of_mem _ hm, hns⟩

/-- After the scanner has just emitted a space (flag `true`), the next emitted
character is not whitespace. -/
theorem head?_collapseWSAux_true {c : Nat} :
    ∀ l : PyStr, (collapseWSAux true l).head? = some c → isSpaceB c = false := by
  intro l
  induction l with
  | nil => intro h; simp [collapseWSAux] at h
  | cons x xs ih =>
    intro h
    by_cases hx : isSpaceB x = true
    · simp only [collapseWSAux, hx, if_true] at h
      exact ih h
    · simp only [collapseWSAux, hx, Bool.false_eq_true, if_false, List.head?_cons,
        Option.some.injEq] at h
      subst h
      simpa using hx

/-- No two adjacent whitespace characters survive `collapseWSAux`. -/
theorem chain'_collapseWSAux :
    ∀ (b : Bool) (l : PyStr),
      (collapseWSAux b l).Chain' (fun a c => ¬(isSpaceB a = true ∧ isSpaceB c = true)) := by
  intro b l
  induction l generalizing b with
  | nil => simp [collapseWSAux]
  | cons x xs ih =>
    by_cases hx : isSpaceB x = true
    · cases b with
      | true => simpa [collapseWSAux, hx] using ih true
      | false =>
        simp only [collapseWSAux, hx, if_true, Bool.false_eq_true, if_false]
        rw [List.chain'_cons']
        refine ⟨?_, ih true⟩
        intro y hy
        intro hcon
        have := head?_collapseWSAux_true xs hy
        rw [this] at hcon
        exact absurd hcon.2 (by simp)
    · simp only [collapseWSAux, hx, Bool.false_eq_true, if_false]
      rw [List.chain'_cons']
      refine ⟨?_, ih false⟩
      intro y hy hcon
      exact hx hcon.1

/-- `collapseWSAux` is the identity on a list whose whitespace is exactly the
single spaces separating non-whitespace characters (and, when the flag is
`true`, whose head is not whitespace). -/
theorem collapseWSAux_eq_self :
    ∀ (l : PyStr) (b : Bool),
      (∀ c ∈ l, isSpaceB c = true → c = 32) →
      l.Chain' (fun a c => ¬(isSpaceB a = true ∧ isSpaceB c = true)) →
      (b = true → ∀ c, l.head? = some c → isSpaceB c = false) →
      collapseWSAux b l = l := by
  intro l
  induction l with
  | nil => intro b _ _ _; rfl
  | cons x xs ih =>
    intro b hall hchain hhead
    by_cases hx : isSpaceB x = true
    · cases b with
      | true =>
        exact absurd hx (by simp [hhead rfl x rfl])
      | false =>
        have hx32 : x = 32 := hall x (List.mem_cons_self _ _) hx
        simp only [collapseWSAux, hx, if_true, Bool.false_eq_true, if_false]
        rw [hx32]
        congr 1
        apply ih true
        · intro c hc; exact hall c (List.mem_cons_of_mem _ hc)
        · exact (List.chain'_cons'.1 hchain).2
        · intro _ c hc
          have := (List.chain'_cons'.1 hchain).1 c hc
          by_contra hcs
          simp only [Bool.not_eq_false] at hcs
          exact this ⟨hx, hcs⟩
    · simp only [collapseWSAux, hx, Bool.false_eq_true, if_false]
      congr 1
      apply ih false
      · intro c hc; exact hall c (List.mem_cons_of_mem _ hc)
      · exact (List.chain'_cons'.1 hchain).2
      · intro h; cases h

/-! ### `pyStrip` lemmas -/

theorem pyStrip_sublist (l : PyStr) : (pyStrip l).Sublist l := by
  unfold pyStrip
  exact List.Sublist.trans
    (List.IsPrefix.sublist (List.rdropWhile_prefix _ _))
    (List.IsSuffix.sublist (List.dropWhile_suffix _))

theorem mem_pyStrip {c : Nat} {l : PyStr} (h : c ∈ pyStrip l) : c ∈ l :=
  List.Sublist.mem h (pyStrip_sublist l)

theorem chain'_pyStrip {R : Nat → Nat → Prop} {l : PyStr} (h : l.Chain' R) :
    (pyStrip l).Chain' R := by
  unfold pyStrip
  exact List.Chain'.prefix (List.Chain'.suffix h (List.dropWhile_suffix _))
    (List.rdropWhile_prefix _ _)

/-- `dropWhile` stays the identity on any prefix of a list it leaves unchanged. -/
theorem dropWhile_eq_self_of_prefix {p : Nat → Bool} {l m : PyStr}
    (hpre : m <+: l) (hl : l.dropWhile p = l) : m.dropWhile p = m := by
  obtain ⟨t, rfl⟩ := hpre
  cases m with
  | nil => rfl
  | cons c m' =>
    rw [List.cons_append, List.dropWhile_cons] at hl
    by_cases hc : p c = true
    · rw [if_pos hc] at hl
      have hle := List.IsSuffix.sublist (List.dropWhile_suffix (l := m' ++ t) p)
      rw [hl] at hle
      have := hle.length_le
      simp at this
    · rw [List.dropWhile_cons, if_neg hc]

/-- Python `strip` is idempotent. -/
theorem pyStrip_idem (l : PyStr) : pyStrip (pyStrip l) = pyStrip l := by
  unfold pyStrip
  have h1 : (l.dropWhile isSpaceB).dropWhile isSpaceB = l.dropWhile isSpaceB :=
    List.dropWhile_idempotent _ _
  have h2 : ((l.dropWhile isSpaceB).rdropWhile isSpaceB).dropWhile isSpaceB
      = (l.dropWhile isSpaceB).rdropWhile isSpaceB :=
    dropWhile_eq_self_of_prefix (List.rdropWhile_prefix _ _) h1
  rw [h2, List.rdropWhile_idempotent]

/-! ### Idempotence of `normalize_title` (claim C8) -/

/-- `map` is the identity when the function fixes every member. -/
theorem map_eq_self_of_mem {f : Nat → Nat} :
    ∀ l : PyStr, (∀ c ∈ l, f c = c) → l.map f = l := by
  intro l
  induction l with
  | nil => intro _; rfl
  | cons x xs ih =>
    intro h
    simp only [List.map_cons, h x (List.mem_cons_self _ _)]
    rw [ih fun c hc => h c (List.mem_cons_of_mem _ hc)]

/-- All members of a normalized title are kept word characters or the space. -/
theorem mem_normalize_title {c : Nat} {t : PyStr} (h : c ∈ normalize_title t) :
    c = 32 ∨ c ∈ (pyLower t).filter keepB := by
  have h1 : c ∈ collapseWS ((pyLower t).filter keepB) := mem_pyStrip h
  rcases mem_collapseWSAux false _ h1 with h32 | ⟨hm, _⟩
  · exact Or.inl h32
  · exact Or.inr hm

/-- C8 helper: lower-casing fixes every character of a normalized title. -/
theorem pyLower_normalize_title (t : PyStr) :
    pyLower (normalize_title t) = normalize_title t := by
  apply map_eq_self_of_mem
  intro c hc
  rcases mem_normalize_title hc with h32 | hm
  · subst h32; rfl
  · rcases List.mem_filter.1 hm with ⟨hml, _⟩
    rcases List.mem_map.1 hml with ⟨b, _, rfl⟩
    exact pyLowerChar_idem b

/-- C8 helper: the punctuation filter keeps every character of a normalized title. -/
theorem filter_keepB_normalize_title (t : PyStr) :
    (normalize_title t).filter keepB = normalize_title t := by
  rw [List.filter_eq_self]
  intro c hc
  rcases mem_normalize_title hc with h32 | hm
  · subst h32; exact keepB_space
  · exact (List.mem_filter.1 hm).2

/-- C8 helper: whitespace collapsing fixes a normalized title. -/
theorem collapseWS_normalize_title (t : PyStr) :
    collapseWS (normalize_title t) = normalize_title t := by
  apply collapseWSAux_eq_self
  · intro c hc hsp
    rcases mem_collapseWSAux false _ (mem_pyStrip hc) with h32 | ⟨_, hns⟩
    · exact h32
    · rw [hsp] at hns; cases hns
  · exact chain'_pyStrip (chain'_collapseWSAux false _)
  · intro h; cases h

/-- **C8 (confirmed).** Title normalization — lower-case, strip punctuation,
collapse whitespace, strip — is idempotent: for every string `t`,
`normalize_title (normalize_title t) = normalize_title t`
(src/modules/multi_source_search.py lines 139-158). -/
theorem C8_normalize_title_idempotent (t : PyStr) :
    normalize_title (normalize_title t) = normalize_title t := by
  conv_lhs => rw [normalize_title]
  rw [pyLower_normalize_title, filter_keepB_normalize_title,
    collapseWS_normalize_title]
  exact pyStrip_idem _

/-! ## Idea ranking (`src/modules/idea_generation.py`, claim C7)

`ResearchIdea` is the dataclass of `src/models.py` (float scores modelled as
rationals).  `rank_ideas` is `sorted(ideas, key=score, reverse=True)`:
Python's `sorted` is a stable sort, and `reverse=True` reverses the comparison
while keeping equal-key elements in input order; it is modelled as a stable
descending insertion sort — each element is placed after every already-placed
element of greater-or-equal composite score. -/

structure ResearchIdea where
  ideaId : PyStr
  title : PyStr := []
  motivation : PyStr
  coreHypothesis : PyStr
  expectedContribution : PyStr
  differenceFromExisting : PyStr
  feasibilityScore : ℚ := 0
  noveltyScore : ℚ := 0
deriving DecidableEq

/-- `score` inside `rank_ideas`: `0.6 * novelty_score + 0.4 * feasibility_score`. -/
def compositeScore (idea : ResearchIdea) : ℚ :=
  (6 / 10 : ℚ) * idea.noveltyScore + (4 / 10 : ℚ) * idea.feasibilityScore

/-- Insert one idea into an already-ranked (descending) list, after every
element of greater-or-equal composite score. -/
def insertIdea (x : ResearchIdea) : List ResearchIdea → List ResearchIdea
  | [] => [x]
  | y :: ys =>
    if compositeScore y < compositeScore x then x :: y :: ys
    else y :: insertIdea x ys

/-- `rank_ideas` (src/modules/idea_generation.py lines 118-135). -/
def rank_ideas (ideas : List ResearchIdea) : List ResearchIdea :=
  ideas.foldl (fun acc x => insertIdea x acc) []

/-- Descending order on composite scores. -/
def ScoreDesc (a b : ResearchIdea) : Prop := compositeScore b ≤ compositeScore a

theorem mem_insertIdea {z x : ResearchIdea} :
    ∀ {l : List ResearchIdea}, z ∈ insertIdea x l → z = x ∨ z ∈ l := by
  intro l
  induction l with
  | nil => intro h; simpa [insertIdea] using h
  | cons y ys ih =>
    intro h
    unfold insertIdea at h
    split_ifs at h with hlt
    · rcases List.mem_cons.1 h with h1 | h2
      · exact Or.inl h1
      · exact Or.inr h2
    · rcases List.mem_cons.1 h with h1 | h2
      · exact Or.inr (h1 ▸ List.mem_cons_self _ _)
      · rcases ih h2 with h3 | h4
        · exact Or.inl h3
        · exact Or.inr (List.mem_cons_of_mem _ h4)

theorem pairwise_insertIdea {x : ResearchIdea} :
    ∀ {l : List ResearchIdea}, l.Pairwise ScoreDesc → (insertIdea x l).Pairwise ScoreDesc := by
  intro l
  induction l with
  | nil => intro _; simp [insertIdea, List.pairwise_singleton]
  | cons y ys ih =>
    intro hp
    rcases List.pairwise_cons.1 hp with ⟨hy, hys⟩
    unfold insertIdea
    split_ifs with hlt
    · refine List.pairwise_cons.2 ⟨?_, hp⟩
      intro z hz
      rcases List.mem_cons.1 hz with rfl | hz'
      · exact le_of_lt hlt
      · exact le_trans (hy z hz') (le_of_lt hlt)
    · refine List.pairwise_cons.2 ⟨?_, ih hys⟩
      intro z hz
      rcases mem_insertIdea hz with rfl | hz'
      · exact le_of_not_lt hlt
      · exact hy z hz'

theorem perm_insertIdea (x : ResearchIdea) :
    ∀ l : List ResearchIdea, (insertIdea x l).Perm (x :: l) := by
  intro l
  induction l with
  | nil => simp [insertIdea]
  | cons y ys ih =>
    unfold insertIdea
    split_ifs with hlt
    · exact List.Perm.refl _
    · exact List.Perm.trans (List.Perm.cons y ih) (List.Perm.swap x y ys)

/-- In a ranked list headed by a score strictly below `s`, no element has score `s`. -/
theorem filter_scoreEq_nil {s : ℚ} {y : ResearchIdea} {ys : List ResearchIdea}
    (hp : (y :: ys).Pairwise ScoreDesc) (hy : compositeScore y < s) :
    (y :: ys).filter (fun z => decide (compositeScore z = s)) = [] := by
  rw [List.filter_eq_nil_iff]
  intro z hz
  rcases List.mem_cons.1 hz with rfl | hz'
  · simp [ne_of_lt hy]
  · have hle : compositeScore z ≤ compositeScore y :=
      (List.pairwise_cons.1 hp).1 z hz'
    have : compositeScore z < s := lt_of_le_of_lt hle hy
    simp [ne_of_lt this]

/-- Stability of insertion: among elements of one composite score, an inserted
element lands last. -/
theorem filter_insertIdea (s : ℚ) {x : ResearchIdea} :
    ∀ {l : List ResearchIdea}, l.Pairwise ScoreDesc →
      (insertIdea x l).filter (fun z => decide (compositeScore z = s)) =
        if compositeScore x = s then
          l.filter (fun z => decide (compositeScore z = s)) ++ [x]
        else l.filter (fun z => decide (compositeScore z = s)) := by
  intro l
  induction l with
  | nil =>
    intro _
    by_cases hx : compositeScore x = s <;>
      simp [insertIdea, List.filter_cons, hx]
  | cons y ys ih =>
    intro hp
    rcases List.pairwise_cons.1 hp with ⟨_, hys⟩
    by_cases hlt : compositeScore y < compositeScore x
    · simp only [insertIdea, if_pos hlt]
      by_cases hx : compositeScore x = s
      · have hnil : (y :: ys).filter (fun z => decide (compositeScore z = s)) = [] :=
          filter_scoreEq_nil hp (hx ▸ hlt)
        rw [if_pos hx, hnil, List.filter_cons, if_pos (by simpa using hx), hnil]
        rfl
      · rw [if_neg hx, List.filter_cons, if_neg (by simpa using hx)]
    · simp only [insertIdea, if_neg hlt]
      have ihys := ih hys
      by_cases hx : compositeScore x = s
      · rw [if_pos hx] at ihys ⊢
        by_cases hy : compositeScore y = s <;>
          simp [List.filter_cons, hy, ihys]
      · rw [if_neg hx] at ihys ⊢
        by_cases hy : compositeScore y = s <;>
          simp [List.filter_cons, hy, ihys]

/-- The fold underlying `rank_ideas` keeps the accumulator ranked. -/
theorem pairwise_foldl_insertIdea :
    ∀ (l acc : List ResearchIdea), acc.Pairwise ScoreDesc →
      (l.foldl (fun acc x => insertIdea x acc) acc).Pairwise ScoreDesc := by
  intro l
  induction l with
  | nil => intro acc h; exact h
  | cons x xs ih =>
    intro acc h
    exact ih (insertIdea x acc) (pairwise_insertIdea h)

theorem perm_foldl_insertIdea :
    ∀ (l acc : List ResearchIdea),
      (l.foldl (fun acc x => insertIdea x acc) acc).Perm (l ++ acc) := by
  intro l
  induction l with
  | nil => intro acc; exact List.Perm.refl _
  | cons x xs ih =>
    intro acc
    have h1 := ih (insertIdea x acc)
    have h2 : (xs ++ insertIdea x acc).Perm (xs ++ (x :: acc)) :=
      List.Perm.append_left xs (perm_insertIdea x acc)
    have h3 : (xs ++ x :: acc).Perm (x :: (xs ++ acc)) := List.perm_middle
    simpa using List.Perm.trans (List.Perm.trans h1 h2) h3

theorem filter_foldl_insertIdea (s : ℚ) :
    ∀ (l acc : List ResearchIdea), acc.Pairwise ScoreDesc →
      (l.foldl (fun acc x => insertIdea x acc) acc).filter
          (fun z => decide (compositeScore z = s)) =
        acc.filter (fun z => decide (compositeScore z = s)) ++
          l.filter (fun z => decide (compositeScore z = s)) := by
  intro l
  induction l with
  | nil => intro acc _; simp
  | cons x xs ih =>
    intro acc hacc
    have h1 := ih (insertIdea x acc) (pairwise_insertIdea hacc)
    rw [List.foldl_cons, h1, filter_insertIdea s hacc]
    by_cases hx : compositeScore x = s <;> simp [List.filter_cons, hx]

/-- **C7 (confirmed).** `rank_ideas` permutes its input into descending order
of the composite score `0.6*novelty_score + 0.4*feasibility_score`, and the
sort is stable: for every score value, the subsequence of ideas having that
composite score is exactly the input's subsequence, i.e. equal-score ideas
keep their relative input order (src/modules/idea_generation.py lines 118-135). -/
theorem C7_rank_ideas_sorted_stable (ideas : List ResearchIdea) :
    (rank_ideas ideas).Pairwise ScoreDesc ∧
    (rank_ideas ideas).Perm ideas ∧
    ∀ s : ℚ, (rank_ideas ideas).filter (fun z => decide (compositeScore z = s)) =
      ideas.filter (fun z => decide (compositeScore z = s)) := by
  refine ⟨pairwise_foldl_insertIdea ideas [] (List.Pairwise.nil), ?_, ?_⟩
  · have := perm_foldl_insertIdea ideas []
    simpa [rank_ideas] using this
  · intro s
    have := filter_foldl_insertIdea s ideas [] (List.Pairwise.nil)
    simpa [rank_ideas] using this

/-! ## LLM abstraction layer (`src/llm/base.py`, `src/llm/openai_llm.py`)

The underlying network request of one attempt (`self._client.chat.completions
.create(**params)` plus the response extraction, lines 76-94 of
`openai_llm.py`) is modelled as an oracle from the attempt number to either an
assembled `LLMResponse` or the raised exception; the retry loop around it
(lines 72-105) is embedded exactly.  `time.sleep(2 ** attempt)` is recorded in
an explicit list of slept durations. -/

/-- A raised Python exception, carrying its message. -/
inductive PyErr
  | valueError (msg : PyStr)
  | typeError (msg : PyStr)
  | jsonDecodeError (msg : PyStr)
  | attributeError (attr : PyStr)
  | generic (msg : PyStr)
deriving DecidableEq

/-- The `Exception(f"OpenAI API call failed after {max_retries} retries:
{last_error}")` raised when the loop exhausts its attempts. -/
inductive ChatErr
  | providerFail (retries : Nat) (lastError : Option PyErr)
deriving DecidableEq

/-- `LLMConfig` (src/llm/base.py lines 40-54). -/
structure LLMConfig where
  apiKey : PyStr := []
  model : PyStr := []
  baseUrl : Option PyStr := none
  temperature : ℚ := 7 / 10
  maxTokens : Option Nat := none
  timeout : Nat := 60
  maxRetries : Nat := 3
  maxCostPerRequest : Option ℚ := none
  dailyBudget : Option ℚ := none
deriving DecidableEq

/-- `LLMResponse` (src/llm/base.py lines 28-37; `raw_response` omitted). -/
structure LLMResponse where
  content : PyStr
  model : PyStr := []
  tokensUsed : Option Nat := none
  cost : Option ℚ := none
  finishReason : Option PyStr := none
deriving DecidableEq

/-- `BaseLLM._validate_budget` (src/llm/base.py lines 148-161).  Note the
Python truthiness test `if self.config.max_cost_per_request:`:
a ceiling of `None` — or `0.0` — disables the check. -/
def validate_budget (cfg : LLMConfig) (estimatedCost : ℚ) : Bool :=
  match cfg.maxCostPerRequest with
  | some m => if m ≠ 0 then (if estimatedCost > m then false else true) else true
  | none => true

/-- The retry loop of `OpenAILLM.chat` (src/llm/openai_llm.py lines 72-105).
The Python loop runs `attempt` over `range(max_retries)`; here `remaining`
counts the attempts still allowed, so the current attempt number is
`maxRetries - remaining` at the `remaining + 1` pattern.  On failure the loop
sleeps `2 ** attempt` seconds and retries while `attempt < max_retries - 1`
(i.e. `remaining > 0`); afterwards it raises with the last error. -/
def chatLoop (oracle : Nat → Except PyErr LLMResponse) (maxRetries : Nat) :
    Nat → Option PyErr → List Nat → Except ChatErr LLMResponse × List Nat
  | 0, lastErr, sleeps => (.error (.providerFail maxRetries lastErr), sleeps)
  | remaining + 1, _, sleeps =>
    match oracle (maxRetries - (remaining + 1)) with
    | .ok r => (.ok r, sleeps)
    | .error e =>
      if remaining > 0 then
        chatLoop oracle maxRetries remaining (some e)
          (sleeps ++ [2 ^ (maxRetries - (remaining + 1))])
      else (.error (.providerFail maxRetries (some e)), sleeps)

/-- `OpenAILLM.chat` (src/llm/openai_llm.py lines 41-105): the parameter
assembly (lines 50-70) only shapes the request the oracle answers; the
observable control flow is the retry loop.  Returns the outcome and the list
of back-off sleeps performed.  Note that nothing on this path consults
`cfg.maxCostPerRequest` — the method never calls `_validate_budget`. -/
def OpenAILLM.chat (cfg : LLMConfig) (oracle : Nat → Except PyErr LLMResponse) :
    Except ChatErr LLMResponse × List Nat :=
  chatLoop oracle cfg.maxRetries cfg.maxRetries none []

/-! ### Claim C1 -/

/-- A concrete provider whose request fails on attempts 0 and 1 and would
succeed on attempt 2. -/
def oracleC1 : Nat → Except PyErr LLMResponse := fun n =>
  if n < 2 then .error (.generic (pystr "boom")) else .ok { content := pystr "ok" }

/-- A config with `max_retries = 2`. -/
def cfgC1 : LLMConfig := { maxRetries := 2 }

/-- **C1 (counterexample).** With `max_retries = 2` and an underlying request
that fails twice and would succeed on the third attempt, `chat` never makes a
third attempt: it raises the provider error after the second failure (having
slept `2^0 = 1` second once) instead of returning the successful response.
`range(max_retries)` bounds the *total* number of attempts, not the number of
retries after the first attempt. -/
theorem C1_counterexample :
    OpenAILLM.chat cfgC1 oracleC1 =
      (.error (.providerFail 2 (some (.generic (pystr "boom")))), [1]) ∧
    (OpenAILLM.chat cfgC1 oracleC1).1 ≠ .ok { content := pystr "ok" } :=
  ⟨rfl, fun h => nomatch h⟩

/-- **C1 (amended, confirmed).** `max_retries` bounds the total number of
attempts.  A call whose request fails twice then succeeds returns the third
attempt's response — with no error surfaced — only when configured with
`max_retries = 3` (sleeping `2^0` then `2^1` seconds before the retries),
whereas with `max_retries = 2` the same failure pattern exhausts the budget
after the second attempt and `chat` raises the provider error carrying the
last underlying error, having slept `2^0` seconds. -/
theorem C1_amended_retry_semantics
    (cfg cfg' : LLMConfig) (oracle orc' : Nat → Except PyErr LLMResponse)
    (r : LLMResponse) (e0 e1 e0' e1' : PyErr)
    (hc : cfg.maxRetries = 3)
    (h0 : oracle 0 = .error e0) (h1 : oracle 1 = .error e1) (h2 : oracle 2 = .ok r)
    (hc' : cfg'.maxRetries = 2)
    (g0 : orc' 0 = .error e0') (g1 : orc' 1 = .error e1') :
    OpenAILLM.chat cfg oracle = (.ok r, [1, 2]) ∧
    OpenAILLM.chat cfg' orc' = (.error (.providerFail 2 (some e1')), [1]) := by
  constructor
  · rw [OpenAILLM.chat, hc]
    simp [chatLoop, h0, h1, h2]
  · rw [OpenAILLM.chat, hc']
    simp [chatLoop, g0, g1]

/-- Witness for `C1_amended_retry_semantics` at a concrete configuration and
oracle. -/
theorem C1_amended_retry_semantics_witness :
    OpenAILLM.chat { maxRetries := 3 }
        (fun n => if n < 2 then .error (.generic (pystr "x")) else .ok { content := pystr "y" }) =
      (.ok { content := pystr "y" }, [1, 2]) ∧
    OpenAILLM.chat cfgC1 oracleC1 =
      (.error (.providerFail 2 (some (.generic (pystr "boom")))), [1]) :=
  C1_amended_retry_semantics { maxRetries := 3 } cfgC1
    (fun n => if n < 2 then .error (.generic (pystr "x")) else .ok { content := pystr "y" })
    oracleC1 { content := pystr "y" }
    (.generic (pystr "x")) (.generic (pystr "x"))
    (.generic (pystr "boom")) (.generic (pystr "boom"))
    rfl rfl rfl rfl rfl rfl rfl

/-! ### Claim C2 -/

/-- A config whose per-request ceiling is one millionth of a dollar. -/
def cfgC2 : LLMConfig := { maxRetries := 3, maxCostPerRequest := some (1 / 1000000) }

/-- A provider answering immediately with a response that cost a full dollar. -/
def oracleC2 : Nat → Except PyErr LLMResponse := fun _ =>
  .ok { content := pystr "expensive", tokensUsed := some 200000, cost := some 1 }

/-- **C2 (code bug).** The budget ceiling is computed but not enforced on the
request path: `chat`'s result is entirely independent of
`max_cost_per_request` (first conjunct — the field can be replaced by any
other value without changing the outcome), even though `_validate_budget`
itself would refuse (second conjunct): with a ceiling of `$1e-6`, a request
costing `$1` is dispatched and its response returned (third conjunct), and no
`BudgetExceeded` refusal exists anywhere on the path.  `OpenAILLM.chat` never
calls `_validate_budget`. -/
theorem C2_budget_not_enforced :
    (∀ (cfg : LLMConfig) (b : Option ℚ) (oracle : Nat → Except PyErr LLMResponse),
      OpenAILLM.chat { cfg with maxCostPerRequest := b } oracle =
        OpenAILLM.chat cfg oracle) ∧
    validate_budget cfgC2 1 = false ∧
    OpenAILLM.chat cfgC2 oracleC2 =
      (.ok { content := pystr "expensive", tokensUsed := some 200000, cost := some 1 }, []) := by
  refine ⟨fun cfg b oracle => rfl, ?_, rfl⟩
  norm_num [validate_budget, cfgC2]

/-! ## Task record updates (`src/backend/tasks/base.py`, claims C3 and C10)

The `AsyncTask` database row is modelled as a record; the session/commit
machinery is modelled as pure record update (the task looked up by id is the
record passed in).  JSON result payload values are modelled as strings — the
claims never inspect them.  The only operation inside the `try:` that can
raise is `models.TaskStatus(status)` on an unknown status string; the
surrounding `except` swallows it, so nothing is committed in that case. -/

/-- `TaskStatus` (src/backend/db/models.py lines 20-26). -/
inductive TaskStatus
  | pending | running | completed | failed | cancelled
deriving DecidableEq

/-- `models.TaskStatus(status)`: look an enum member up by value, `none`
standing for the `ValueError` Python raises. -/
def TaskStatus.ofStr? (s : PyStr) : Option TaskStatus :=
  if s = pystr "pending" then some .pending
  else if s = pystr "running" then some .running
  else if s = pystr "completed" then some .completed
  else if s = pystr "failed" then some .failed
  else if s = pystr "cancelled" then some .cancelled
  else none

/-- A JSON object, values restricted to strings. -/
abbrev Dict := List (PyStr × PyStr)

/-- Python `d[k] = v`: overwrite in place if the key exists, else append. -/
def dictSet (d : Dict) (k : PyStr) (v : PyStr) : Dict :=
  if d.any (fun kv => kv.1 == k) then
    d.map (fun kv => if kv.1 == k then (k, v) else kv)
  else d ++ [(k, v)]

/-- Python `{**a, **b}`. -/
def dictMerge (a b : Dict) : Dict :=
  b.foldl (fun acc kv => dictSet acc kv.1 kv.2) a

/-- The `AsyncTask` row (src/backend/db/models.py lines 235-253), restricted
to the fields `update_task_status` touches.  Timestamps are abstract ticks. -/
structure AsyncTask where
  status : TaskStatus := .pending
  progress : Int := 0
  result : Option Dict := none
  errorMessage : Option PyStr := none
  startedAt : Option Nat := none
  completedAt : Option Nat := none
deriving DecidableEq

/-- `if status: task.status = models.TaskStatus(status)` — the enum value is
already parsed here. -/
def applyStatus (task : AsyncTask) : Option TaskStatus → AsyncTask
  | some st => { task with status := st }
  | none => task

/-- `if progress is not None: task.progress = min(100, max(0, progress))`. -/
def applyProgress (task : AsyncTask) : Option Int → AsyncTask
  | some p => { task with progress := min 100 (max 0 p) }
  | none => task

/-- `if message: ...; task.result["current_message"] = message` (creating the
dict when the row had none). -/
def applyMessage (task : AsyncTask) : Option PyStr → AsyncTask
  | some m =>
    if m.isEmpty then task
    else { task with
      result := some (dictSet (task.result.getD []) (pystr "current_message") m) }
  | none => task

/-- `if result: task.result = {**(task.result or {}), **result}`. -/
def applyResult (task : AsyncTask) : Option Dict → AsyncTask
  | some r =>
    if r.isEmpty then task
    else { task with result := some (dictMerge (task.result.getD []) r) }
  | none => task

/-- `if error: task.error_message = error`. -/
def applyError (task : AsyncTask) : Option PyStr → AsyncTask
  | some e => if e.isEmpty then task else { task with errorMessage := some e }
  | none => task

/-- The two timestamp updates, which compare the raw status *string*. -/
def applyTimestamps (task : AsyncTask) (status : Option PyStr) (now : Nat) : AsyncTask :=
  let t5 :=
    if status == some (pystr "running") && task.startedAt.isNone then
      { task with startedAt := some now }
    else task
  if status == some (pystr "completed") || status == some (pystr "failed") then
    { t5 with completedAt := some now }
  else t5

/-- The field updates between the status parse and `db.commit()`. -/
def commitUpdates (task : AsyncTask) (newSt : Option TaskStatus)
    (status : Option PyStr) (progress : Option Int) (message : Option PyStr)
    (result : Option Dict) (error : Option PyStr) (now : Nat) : AsyncTask :=
  applyTimestamps
    (applyError
      (applyResult (applyMessage (applyProgress (applyStatus task newSt) progress) message)
        result)
      error)
    status now

/-- `DatabaseTask.update_task_status` (src/backend/tasks/base.py lines
32-95).  Each guard mirrors the Python truthiness test it embeds:
`if status:` (non-empty string), `if progress is not None:`, `if message:`,
`if result:` (non-empty dict), `if error:`.  An invalid status string makes
`models.TaskStatus(status)` raise inside the `try:`; the `except` swallows
the exception before `db.commit()`, leaving the row unchanged. -/
def update_task_status (task : AsyncTask) (status : Option PyStr)
    (progress : Option Int) (message : Option PyStr) (result : Option Dict)
    (error : Option PyStr) (now : Nat) : AsyncTask :=
  match status with
  | some s =>
    if s.isEmpty then commitUpdates task none status progress message result error now
    else
      match TaskStatus.ofStr? s with
      | none => task
      | some st => commitUpdates task (some st) status progress message result error now
  | none => commitUpdates task none status progress message result error now

/-- `DatabaseTask.on_failure` (src/backend/tasks/base.py lines 97-106):
`error_msg = f"{type(exc).__name__}: {str(exc)}"`, then an update with
`status="failed", progress=0, error=error_msg`. -/
def on_failure (task : AsyncTask) (excType excMsg : PyStr) (now : Nat) : AsyncTask :=
  update_task_status task (some (pystr "failed")) (some 0) none none
    (some (excType ++ pystr ": " ++ excMsg)) now

/-- `DatabaseTask.on_success` (src/backend/tasks/base.py lines 108-116). -/
def on_success (task : AsyncTask) (retval : Dict) (now : Nat) : AsyncTask :=
  update_task_status task (some (pystr "completed")) (some 100) none
    (some retval) none now

/-! ### Projection lemmas for the update pipeline -/

theorem isEmpty_false_of_ne_nil {α : Type} {l : List α} (h : l ≠ []) :
    l.isEmpty = false := by
  cases l with
  | nil => exact absurd rfl h
  | cons a as => rfl

theorem applyStatus_progress (t : AsyncTask) (o : Option TaskStatus) :
    (applyStatus t o).progress = t.progress := by
  cases o <;> rfl

theorem applyMessage_progress (t : AsyncTask) (o : Option PyStr) :
    (applyMessage t o).progress = t.progress := by
  cases o with
  | none => rfl
  | some m => simp only [applyMessage]; split <;> rfl

theorem applyResult_progress (t : AsyncTask) (o : Option Dict) :
    (applyResult t o).progress = t.progress := by
  cases o with
  | none => rfl
  | some r => simp only [applyResult]; split <;> rfl

theorem applyError_progress (t : AsyncTask) (o : Option PyStr) :
    (applyError t o).progress = t.progress := by
  cases o with
  | none => rfl
  | some e => simp only [applyError]; split <;> rfl

theorem applyTimestamps_progress (t : AsyncTask) (st : Option PyStr) (now : Nat) :
    (applyTimestamps t st now).progress = t.progress := by
  unfold applyTimestamps
  split <;> split <;> rfl

theorem commitUpdates_progress (t : AsyncTask) (newSt : Option TaskStatus)
    (status : Option PyStr) (progress : Option Int) (message : Option PyStr)
    (result : Option Dict) (error : Option PyStr) (now : Nat) :
    (commitUpdates t newSt status progress message result error now).progress =
      (applyProgress (applyStatus t newSt) progress).progress := by
  unfold commitUpdates
  rw [applyTimestamps_progress, applyError_progress, applyResult_progress,
    applyMessage_progress]

theorem applyMessage_status (t : AsyncTask) (o : Option PyStr) :
    (applyMessage t o).status = t.status := by
  cases o with
  | none => rfl
  | some m => simp only [applyMessage]; split <;> rfl

theorem applyResult_status (t : AsyncTask) (o : Option Dict) :
    (applyResult t o).status = t.status := by
  cases o with
  | none => rfl
  | some r => simp only [applyResult]; split <;> rfl

theorem applyError_status (t : AsyncTask) (o : Option PyStr) :
    (applyError t o).status = t.status := by
  cases o with
  | none => rfl
  | some e => simp only [applyError]; split <;> rfl

theorem applyTimestamps_status (t : AsyncTask) (st : Option PyStr) (now : Nat) :
    (applyTimestamps t st now).status = t.status := by
  unfold applyTimestamps
  split <;> split <;> rfl

theorem applyProgress_status (t : AsyncTask) (o : Option Int) :
    (applyProgress t o).status = t.status := by
  cases o <;> rfl

theorem applyMessage_errorMessage (t : AsyncTask) (o : Option PyStr) :
    (applyMessage t o).errorMessage = t.errorMessage := by
  cases o with
  | none => rfl
  | some m => simp only [applyMessage]; split <;> rfl

theorem applyResult_errorMessage (t : AsyncTask) (o : Option Dict) :
    (applyResult t o).errorMessage = t.errorMessage := by
  cases o with
  | none => rfl
  | some r => simp only [applyResult]; split <;> rfl

theorem applyError_some_errorMessage (t : AsyncTask) {e : PyStr} (h : e ≠ []) :
    (applyError t (some e)).errorMessage = some e := by
  simp only [applyError]
  rw [isEmpty_false_of_ne_nil h]
  rfl

theorem applyTimestamps_errorMessage (t : AsyncTask) (st : Option PyStr) (now : Nat) :
    (applyTimestamps t st now).errorMessage = t.errorMessage := by
  unfold applyTimestamps
  split <;> split <;> rfl

theorem applyTimestamps_failed_completedAt (t : AsyncTask) (now : Nat) :
    (applyTimestamps t (some (pystr "failed")) now).completedAt = some now := rfl

/-- A task caught mid-stage: running at 55% progress. -/
def taskC3 : AsyncTask := { status := .running, progress := 55, startedAt := some 3 }

/-- The error message built by `on_failure` is never the empty string. -/
theorem errMsg_ne_nil (excType excMsg : PyStr) :
    excType ++ pystr ": " ++ excMsg ≠ [] := by
  simp [pystr]

/-- Reduction of `on_failure` to the post-parse update pipeline. -/
theorem on_failure_eq (task : AsyncTask) (excType excMsg : PyStr) (now : Nat) :
    on_failure task excType excMsg now =
      commitUpdates task (some .failed) (some (pystr "failed")) (some 0) none none
        (some (excType ++ pystr ": " ++ excMsg)) now := rfl

/-- **C3 (counterexample).** A stage task failing at 55% progress does *not*
keep its last recorded progress: `on_failure` passes `progress=0`, so the
stored progress is reset to 0 on failure. -/
theorem C3_counterexample :
    (on_failure taskC3 (pystr "ValueError") (pystr "boom") 9).progress = 0 ∧
    taskC3.progress = 55 ∧ (0 : Int) ≠ 55 := by
  refine ⟨?_, rfl, by decide⟩
  rw [on_failure_eq, commitUpdates_progress]
  show min 100 (max 0 (0 : Int)) = 0
  omega

/-- **C3 (amended, confirmed).** On an exception inside a stage the task
transitions to `failed` with the error message (`"Type: text"`) captured and
its completion timestamp set — but the progress field is *reset to 0*, not
left at its last recorded value. -/
theorem C3_amended_on_failure (task : AsyncTask) (excType excMsg : PyStr) (now : Nat) :
    (on_failure task excType excMsg now).status = .failed ∧
    (on_failure task excType excMsg now).progress = 0 ∧
    (on_failure task excType excMsg now).errorMessage =
      some (excType ++ pystr ": " ++ excMsg) ∧
    (on_failure task excType excMsg now).completedAt = some now := by
  rw [on_failure_eq]
  refine ⟨?_, ?_, ?_, applyTimestamps_failed_completedAt _ now⟩
  · unfold commitUpdates
    rw [applyTimestamps_status, applyError_status, applyResult_status,
      applyMessage_status, applyProgress_status]
    rfl
  · rw [commitUpdates_progress]
    show min 100 (max 0 (0 : Int)) = 0
    omega
  · unfold commitUpdates
    rw [applyTimestamps_errorMessage,
      applyError_some_errorMessage _ (errMsg_ne_nil excType excMsg)]

/-- **C10 (confirmed).** The stored progress is clamped into `[0,100]`:
whatever integer a stage passes, `update_task_status` stores
`min(100, max(0, p))`; and any update call preserves the invariant
`0 ≤ progress ≤ 100` of the persisted row (including calls whose invalid
status string aborts the update before anything is stored). -/
theorem C10_progress_clamped :
    (∀ (task : AsyncTask) (p : Int) (message : Option PyStr) (result : Option Dict)
        (error : Option PyStr) (now : Nat),
      (update_task_status task none (some p) message result error now).progress =
        min 100 (max 0 p)) ∧
    (∀ (task : AsyncTask) (status : Option PyStr) (progress : Option Int)
        (message : Option PyStr) (result : Option Dict) (error : Option PyStr) (now : Nat),
      0 ≤ task.progress → task.progress ≤ 100 →
      0 ≤ (update_task_status task status progress message result error now).progress ∧
      (update_task_status task status progress message result error now).progress ≤ 100) := by
  have hcommit : ∀ (task : AsyncTask) (newSt : Option TaskStatus) (status : Option PyStr)
      (progress : Option Int) (message : Option PyStr) (result : Option Dict)
      (error : Option PyStr) (now : Nat),
      (commitUpdates task newSt status progress message result error now).progress =
        match progress with
        | some p => min 100 (max 0 p)
        | none => task.progress := by
    intro task newSt status progress message result error now
    rw [commitUpdates_progress]
    cases progress with
    | none => exact applyStatus_progress task newSt
    | some p => rfl
  constructor
  · intro task p message result error now
    have heq : update_task_status task none (some p) message result error now =
        commitUpdates task none none (some p) message result error now := rfl
    rw [heq, hcommit]
  · intro task status progress message result error now h0 h1
    have hbounds : ∀ p : Int, 0 ≤ min 100 (max 0 p) ∧ min 100 (max 0 p) ≤ 100 := by
      intro p; omega
    cases status with
    | none =>
      have heq : update_task_status task none progress message result error now =
          commitUpdates task none none progress message result error now := rfl
      rw [heq, hcommit]
      cases progress with
      | none => exact ⟨h0, h1⟩
      | some p => exact hbounds p
    | some s =>
      simp only [update_task_status]
      by_cases hs : s.isEmpty = true
      · rw [if_pos hs, hcommit]
        cases progress with
        | none => exact ⟨h0, h1⟩
        | some p => exact hbounds p
      · rw [if_neg hs]
        cases hparse : TaskStatus.ofStr? s with
        | none => exact ⟨h0, h1⟩
        | some st =>
          rw [hcommit]
          cases progress with
          | none => exact ⟨h0, h1⟩
          | some p => exact hbounds p

/-- Witness for `C10_progress_clamped`: a stage passing `1000` stores `100`;
a row at 50% stays inside `[0,100]` across an arbitrary update. -/
theorem C10_progress_clamped_witness :
    (update_task_status {} none (some 1000) none none none 0).progress = min 100 (max 0 1000) ∧
    (0 ≤ (update_task_status { progress := 50 } (some (pystr "running")) (some (-3))
        none none none 2).progress ∧
      (update_task_status { progress := 50 } (some (pystr "running")) (some (-3))
        none none none 2).progress ≤ 100) :=
  ⟨C10_progress_clamped.1 {} 1000 none none none 0,
    C10_progress_clamped.2 { progress := 50 } (some (pystr "running")) (some (-3))
      none none none 2 (by decide) (by decide)⟩

/-! ## Research intent construction (`src/modules/research_intent.py`, claim C6) -/

/-- `JournalLevel` (src/models.py lines 11-16). -/
inductive JournalLevel | top | q1 | q2 | any
deriving DecidableEq

/-- `PaperType` (src/models.py lines 19-23). -/
inductive PaperType | survey | research | any
deriving DecidableEq

/-- `ResearchField` (src/models.py lines 26-34). -/
inductive ResearchField | cv | nlp | systems | ml | bio | cross | any
deriving DecidableEq

/-- `JournalLevel(value)`: enum lookup by value, `none` for the raised
`ValueError`. -/
def JournalLevel.ofStr? (s : PyStr) : Option JournalLevel :=
  if s = pystr "top" then some .top
  else if s = pystr "q1" then some .q1
  else if s = pystr "q2" then some .q2
  else if s = pystr "any" then some .any
  else none

/-- `PaperType(value)`. -/
def PaperType.ofStr? (s : PyStr) : Option PaperType :=
  if s = pystr "survey" then some .survey
  else if s = pystr "research" then some .research
  else if s = pystr "any" then some .any
  else none

/-- `ResearchField(value)`. -/
def ResearchField.ofStr? (s : PyStr) : Option ResearchField :=
  if s = pystr "cv" then some .cv
  else if s = pystr "nlp" then some .nlp
  else if s = pystr "systems" then some .systems
  else if s = pystr "ml" then some .ml
  else if s = pystr "bio" then some .bio
  else if s = pystr "cross" then some .cross
  else if s = pystr "any" then some .any
  else none

/-- `ResearchIntent` (src/models.py lines 37-53). -/
structure ResearchIntent where
  keywords : PyStr
  yearStart : Option Int := none
  yearEnd : Option Int := none
  journalLevel : JournalLevel := .any
  paperType : PaperType := .any
  field : ResearchField := .any
deriving DecidableEq

/-- Python truthiness of an optional integer: `None` and `0` are falsy. -/
def truthyInt : Option Int → Bool
  | none => false
  | some n => n != 0

/-- `create_research_intent` (src/modules/research_intent.py lines 9-59).
The year-range guard is `if year_start and year_end and year_start >
year_end:` — Python truthiness, so a year equal to `0` disables the check. -/
def create_research_intent (keywords : PyStr) (year_start year_end : Option Int)
    (journal_level paper_type field : PyStr) : Except PyErr ResearchIntent :=
  if keywords.isEmpty || (pyStrip keywords).isEmpty then
    .error (.valueError (pystr "keywords must not be empty"))
  else
    match JournalLevel.ofStr? (pyLower journal_level),
        PaperType.ofStr? (pyLower paper_type),
        ResearchField.ofStr? (pyLower field) with
    | some jl, some pt, some f =>
      if truthyInt year_start && truthyInt year_end
          && decide (year_start.getD 0 > year_end.getD 0) then
        .error (.valueError (pystr "start year must not exceed end year"))
      else
        .ok { keywords := pyStrip keywords, yearStart := year_start,
              yearEnd := year_end, journalLevel := jl, paperType := pt, field := f }
    | _, _, _ => .error (.valueError (pystr "invalid enum value"))

/-- **C6 (counterexample).** With `year_start = 5` and `year_end = 0` — both
set, and start greater than end — construction succeeds and produces an
intent violating `year_start ≤ year_end`, because Python evaluates
`year_end = 0` as falsy and skips the range check. -/
theorem C6_counterexample :
    create_research_intent (pystr "graph neural networks") (some 5) (some 0)
        (pystr "any") (pystr "any") (pystr "any") =
      .ok { keywords := pystr "graph neural networks",
            yearStart := some 5, yearEnd := some 0 } ∧
    (5 : Int) > 0 :=
  ⟨rfl, by decide⟩

/-- **C6 (amended, confirmed).** When both years are set and *nonzero*,
`year_start > year_end` makes construction fail (no intent is produced,
whatever the other arguments), and every successfully constructed intent
satisfies `year_start ≤ year_end` whenever both years are present and
nonzero. -/
theorem C6_amended_year_validation :
    (∀ (keywords : PyStr) (jl pt f : PyStr) (a b : Int),
      a ≠ 0 → b ≠ 0 → a > b →
      ∀ intent : ResearchIntent,
        create_research_intent keywords (some a) (some b) jl pt f ≠ .ok intent) ∧
    (∀ (keywords : PyStr) (ys ye : Option Int) (jl pt f : PyStr)
        (intent : ResearchIntent),
      create_research_intent keywords ys ye jl pt f = .ok intent →
      ∀ a b : Int, intent.yearStart = some a → intent.yearEnd = some b →
        a ≠ 0 → b ≠ 0 → a ≤ b) := by
  constructor
  · intro keywords jl pt f a b ha hb hab intent h
    unfold create_research_intent at h
    split at h
    · exact nomatch h
    · split at h
      · rw [if_pos ?_] at h
        · exact nomatch h
        · simp only [truthyInt, Bool.and_eq_true, bne_iff_ne, ne_eq,
            decide_eq_true_eq, Option.getD_some]
          exact ⟨⟨ha, hb⟩, hab⟩
      · exact nomatch h
  · intro keywords ys ye jl pt f intent h a b hys hye ha hb
    unfold create_research_intent at h
    split at h
    · exact nomatch h
    · split at h
      · by_cases hcond : (truthyInt ys && truthyInt ye
            && decide (ys.getD 0 > ye.getD 0)) = true
        · rw [if_pos hcond] at h
          exact nomatch h
        · rw [if_neg hcond] at h
          injection h with hI
          subst hI
          dsimp only at hys hye
          subst hys
          subst hye
          simp only [truthyInt, Bool.and_eq_true, bne_iff_ne, ne_eq,
            decide_eq_true_eq, Option.getD_some, not_and, not_lt] at hcond
          exact hcond ⟨ha, hb⟩
      · exact nomatch h

/-- Witness for `C6_amended_year_validation`: `(3, 1)` (both nonzero,
descending) is rejected; the accepted `(2, 3)` satisfies the invariant. -/
theorem C6_amended_year_validation_witness :
    (create_research_intent (pystr "k") (some 3) (some 1)
        (pystr "any") (pystr "any") (pystr "any") ≠ .ok { keywords := pystr "k" }) ∧
    (2 : Int) ≤ 3 :=
  ⟨C6_amended_year_validation.1 (pystr "k") (pystr "any") (pystr "any") (pystr "any")
      3 1 (by decide) (by decide) (by decide) { keywords := pystr "k" },
    C6_amended_year_validation.2 (pystr "k") (some 2) (some 3)
      (pystr "any") (pystr "any") (pystr "any")
      { keywords := pystr "k", yearStart := some 2, yearEnd := some 3 }
      rfl 2 3 rfl rfl (by decide) (by decide)⟩

/-! ## Paper draft generation (`src/modules/paper_draft_generator.py`, claim C5)

`PaperDraftGenerator` imports `ResearchIdea`, `MethodDesign`, `PaperDraft` and
`PaperSection` from `models.py`.  Two mismatches make `generate_draft` raise
unconditionally:

* the prompt f-strings of `_generate_section` (lines 96-155) are all evaluated
  when the `prompts` dict literal is built — *outside* the `try:` — and they
  read `idea.hypothesis`, `idea.contributions`, `method.algorithm_framework`,
  `method.key_modules`, `method.data_requirements`, `method.evaluation_metrics`,
  `method.expected_challenges` and `method.innovation_points`, none of which
  exist on `models.ResearchIdea`/`models.MethodDesign`, so the first read of a
  missing attribute raises `AttributeError`;
* the constructor call `PaperDraft(id=..., idea_id=..., title=..., sections=...)`
  at lines 74-79 passes keywords the `models.PaperDraft` dataclass (a title
  plus seven named `PaperSection` fields) does not accept, raising `TypeError`.

The generator duck-types its inputs, so a call is characterized by the
attribute sets its `idea`/`method` arguments expose; passing the declared
`models.py` objects corresponds to `researchIdeaAttrs`/`methodDesignAttrs`
below.  The prompt *text* is elided — only the attribute reads, in CPython's
evaluation order (dict entries in order, f-string fields left to right),
carry control flow.  The per-section LLM call is an oracle from the section
key. -/

/-- The six keys of `section_order` (lines 45-52). -/
inductive SectionKey
  | abstract | introduction | relatedWork | method | experiment | conclusion
deriving DecidableEq

/-- `str(e)` for the modelled exceptions. -/
def pyErrStr : PyErr → PyStr
  | .valueError m => m
  | .typeError m => m
  | .jsonDecodeError m => m
  | .attributeError a => a
  | .generic m => m

/-- `PaperSection` (src/models.py lines 172-178). -/
structure PaperSection where
  sectionName : PyStr
  content : PyStr
  sourceType : PyStr
  citations : List PyStr := []
deriving DecidableEq

/-- `PaperDraft` (src/models.py lines 181-192): a title plus seven named
`PaperSection` fields — *not* the `{id, idea_id, title, sections}` shape the
generator tries to build. -/
structure PaperDraft where
  title : PyStr
  abstract : PaperSection
  introduction : PaperSection
  relatedWork : PaperSection
  method : PaperSection
  experiments : PaperSection
  discussion : PaperSection
  conclusion : PaperSection
  generatedAt : PyStr := []
deriving DecidableEq

/-- The dataclass parameter names accepted by `models.PaperDraft.__init__`. -/
def paperDraftParams : List PyStr :=
  [pystr "title", pystr "abstract", pystr "introduction", pystr "related_work",
   pystr "method", pystr "experiments", pystr "discussion", pystr "conclusion",
   pystr "generated_at"]

/-- The attribute set of `models.ResearchIdea` (src/models.py lines 123-137):
no `hypothesis`, no `contributions`. -/
def researchIdeaAttrs : List PyStr :=
  [pystr "idea_id", pystr "title", pystr "motivation", pystr "core_hypothesis",
   pystr "expected_contribution", pystr "difference_from_existing",
   pystr "feasibility_score", pystr "novelty_score"]

/-- The attribute set of `models.MethodDesign` (src/models.py lines 140-152):
no `algorithm_framework`, `key_modules`, `data_requirements`,
`evaluation_metrics`, `expected_challenges` or `innovation_points`. -/
def methodDesignAttrs : List PyStr :=
  [pystr "idea_id", pystr "overview", pystr "model_framework", pystr "modules",
   pystr "baseline_differences", pystr "theoretical_justification"]

/-- Python attribute access: `.ok` iff the object exposes the attribute,
`AttributeError` naming the attribute otherwise. -/
def getattrCheck (attrs : List PyStr) (name : PyStr) : Except PyErr Unit :=
  if name ∈ attrs then .ok () else .error (.attributeError name)

/-- The attribute reads performed while the `prompts` dict literal of
`_generate_section` (lines 96-155) is built, in evaluation order: the
"abstract" entry reads `idea.title`, `idea.motivation`, `idea.hypothesis`,
`method.algorithm_framework`, `method.innovation_points`; then
"introduction", "related_work", "method", "experiment" and "conclusion"
follow.  All of this happens before the `try:` at line 159. -/
def buildPrompts (ideaAttrs methodAttrs : List PyStr) : Except PyErr Unit := do
  let _ ← getattrCheck ideaAttrs (pystr "title")
  let _ ← getattrCheck ideaAttrs (pystr "motivation")
  let _ ← getattrCheck ideaAttrs (pystr "hypothesis")
  let _ ← getattrCheck methodAttrs (pystr "algorithm_framework")
  let _ ← getattrCheck methodAttrs (pystr "innovation_points")
  let _ ← getattrCheck ideaAttrs (pystr "title")
  let _ ← getattrCheck ideaAttrs (pystr "motivation")
  let _ ← getattrCheck ideaAttrs (pystr "hypothesis")
  let _ ← getattrCheck ideaAttrs (pystr "contributions")
  let _ ← getattrCheck ideaAttrs (pystr "title")
  let _ ← getattrCheck ideaAttrs (pystr "motivation")
  let _ ← getattrCheck methodAttrs (pystr "algorithm_framework")
  let _ ← getattrCheck methodAttrs (pystr "key_modules")
  let _ ← getattrCheck methodAttrs (pystr "data_requirements")
  let _ ← getattrCheck methodAttrs (pystr "evaluation_metrics")
  let _ ← getattrCheck methodAttrs (pystr "expected_challenges")
  let _ ← getattrCheck ideaAttrs (pystr "title")
  let _ ← getattrCheck ideaAttrs (pystr "contributions")
  let _ ← getattrCheck methodAttrs (pystr "innovation_points")

/-- `section_order` (lines 45-52): fixed keys with display names. -/
def section_order : List (SectionKey × PyStr) :=
  [(.abstract, pystr "摘要"), (.introduction, pystr "引言"),
   (.relatedWork, pystr "相关工作"), (.method, pystr "方法"),
   (.experiment, pystr "实验设计"), (.conclusion, pystr "结论")]

/-- `f"[Section generation failed: {str(e)}]"` (line 179). -/
def failPlaceholder (e : PyErr) : PyStr :=
  pystr "[Section generation failed: " ++ pyErrStr e ++ pystr "]"

/-- `PaperDraftGenerator._generate_section` (lines 85-179): the prompt
construction runs first and its exceptions propagate (they are raised outside
the `try:`); only the LLM call is guarded, degrading to the placeholder. -/
def generate_section (ideaAttrs methodAttrs : List PyStr)
    (chat : SectionKey → Except PyErr LLMResponse) (k : SectionKey) :
    Except PyErr PyStr :=
  match buildPrompts ideaAttrs methodAttrs with
  | .error e => .error e
  | .ok _ =>
    match chat k with
    | .ok r => .ok r.content
    | .error e => .ok (failPlaceholder e)

/-- The constructor call `PaperDraft(id=..., idea_id=..., title=...,
sections=...)` at lines 74-79, checked against the `models.PaperDraft`
parameters: `id` is not among them, so CPython raises `TypeError: unexpected
keyword argument` unconditionally.  (The `none` arm is unreachable for this
call; it would still be a `TypeError`, since the call omits the seven
required section parameters.) -/
def paperDraftCtorCall : Except PyErr PaperDraft :=
  match ([pystr "id", pystr "idea_id", pystr "title", pystr "sections"].find?
      (fun k => !(paperDraftParams.contains k))) with
  | some k => .error (.typeError (pystr "unexpected keyword argument: " ++ k))
  | none => .error (.typeError (pystr "missing required arguments"))

/-- The tail of `generate_draft`: if the section loop raised, propagate;
otherwise perform the `PaperDraft(...)` constructor call. -/
def generate_draft_go :
    Except PyErr (List (SectionKey × PaperSection)) → Except PyErr PaperDraft
  | .error e => .error e
  | .ok _ => paperDraftCtorCall

/-- `PaperDraftGenerator.generate_draft` (lines 23-83): the loop over
`section_order` accumulates `(key, PaperSection(section_name, content,
"ai_generated"))` pairs — any exception of `_generate_section` propagates —
then lines 74-79 construct the draft.  The progress callback is a pure side
effect and the `uuid4` is never reached. -/
def generate_draft (ideaAttrs methodAttrs : List PyStr)
    (chat : SectionKey → Except PyErr LLMResponse) : Except PyErr PaperDraft :=
  generate_draft_go (section_order.mapM (fun kv =>
    (generate_section ideaAttrs methodAttrs chat kv.1).map
      (fun content => (kv.1, PaperSection.mk kv.2 content (pystr "ai_generated") []))))

/-- **C5 (code bug).** Draft generation never returns successfully, so no
draft with a failure placeholder in one section is ever produced.  With the
declared `models.py` idea/method, the very first section's prompt
construction raises `AttributeError` on `idea.hypothesis` — outside the
`try:`, whatever the provider would answer — and even for inputs exposing
every attribute the prompts read, the final `PaperDraft(id=..., idea_id=...,
title=..., sections=...)` call raises `TypeError`: for every attribute sets
and every oracle, `generate_draft` returns an error, never a `PaperDraft`. -/
theorem C5_draft_generation_always_raises :
    (∀ chat : SectionKey → Except PyErr LLMResponse,
      generate_draft researchIdeaAttrs methodDesignAttrs chat =
        .error (.attributeError (pystr "hypothesis"))) ∧
    (∀ (ideaAttrs methodAttrs : List PyStr)
        (chat : SectionKey → Except PyErr LLMResponse) (d : PaperDraft),
      generate_draft ideaAttrs methodAttrs chat ≠ .ok d) := by
  constructor
  · intro chat
    rfl
  · intro ideaAttrs methodAttrs chat d h
    unfold generate_draft at h
    cases hm : section_order.mapM (fun kv =>
        (generate_section ideaAttrs methodAttrs chat kv.1).map
          (fun content => (kv.1, PaperSection.mk kv.2 content (pystr "ai_generated") []))) with
    | error e =>
      rw [hm] at h
      exact nomatch h
    | ok l =>
      rw [hm] at h
      exact nomatch h

/-! ## Landscape analysis (`src/modules/landscape_analyzer.py` and
`src/modules/landscape_analysis.py`, claim C9)

The LLM call is an oracle `Unit → Except PyErr PyStr` (raised exception or
response content) and the `json.loads`-plus-field-extraction step a parameter
`parse` — C9 concerns only the empty-input guard that precedes both.  Each
embedded function also returns the number of LLM calls it performed.  (On a
JSON decode failure `analyze_landscape`'s fallback constructor at lines 93-99
passes keyword arguments `partially_solved_problems`/`tech_evolution` that
`ResearchLandscape` does not accept, so that branch itself raises `TypeError`
— modelled as the error it raises; this is outside C9's scope.) -/

/-- `PaperAnalysis` (src/models.py lines 78-91). -/
structure PaperAnalysis where
  paperId : PyStr
  coreProblem : PyStr
  keyMethod : PyStr
  technicalApproach : PyStr
  experimentConclusions : List PyStr
  limitations : List PyStr
  contributions : List PyStr
deriving DecidableEq

/-- `ResearchCluster` (src/models.py lines 94-100). -/
structure ResearchCluster where
  clusterName : PyStr
  papers : List PyStr
  keyThemes : List PyStr
  technicalEvolution : PyStr
deriving DecidableEq

/-- `ResearchLandscape` (src/models.py lines 103-120). -/
structure ResearchLandscape where
  clusters : List ResearchCluster
  solvedProblems : List PyStr
  partiallySolved : List PyStr
  unsolvedProblems : List PyStr
  technicalEvolution : List (PyStr × PyStr)
deriving DecidableEq

/-- `ResearchLandscapeAnalyzer.analyze_landscape` (landscape_analyzer.py
lines 23-104): `if not analyses: raise ValueError("No paper analyses
provided")` before the prompt is built and the LLM consulted. -/
def analyze_landscape (analyses : List PaperAnalysis)
    (chat : Unit → Except PyErr PyStr)
    (parse : PyStr → Option ResearchLandscape) :
    Except PyErr ResearchLandscape × Nat :=
  if analyses.isEmpty then
    (.error (.valueError (pystr "No paper analyses provided")), 0)
  else
    match chat () with
    | .error e => (.error e, 1)
    | .ok content =>
      match parse content with
      | none => (.error (.typeError (pystr "unexpected keyword argument")), 1)
      | some landscape => (.ok landscape, 1)

/-- `analyze_research_landscape` (landscape_analysis.py lines 13-80): the
same guard over the analyses dict; a JSON decode failure re-raises as
`ValueError`. -/
def analyze_research_landscape (papers_analysis : List (PyStr × PaperAnalysis))
    (chat : Unit → Except PyErr PyStr)
    (parse : PyStr → Option ResearchLandscape) :
    Except PyErr ResearchLandscape × Nat :=
  if papers_analysis.isEmpty then
    (.error (.valueError (pystr "no analyses")), 0)
  else
    match chat () with
    | .error e => (.error e, 1)
    | .ok content =>
      match parse content with
      | none => (.error (.valueError (pystr "invalid JSON")), 1)
      | some landscape => (.ok landscape, 1)

/-- **C9 (confirmed).** Invoked on an empty analysis set, both landscape
entry points fail with a `ValueError` and perform zero LLM calls — the guard
runs before any provider request, whatever the provider would have answered. -/
theorem C9_empty_analyses_fail_fast
    (chat : Unit → Except PyErr PyStr)
    (parse : PyStr → Option ResearchLandscape) :
    (∃ msg, (analyze_landscape [] chat parse).1 = .error (.valueError msg)) ∧
    (analyze_landscape [] chat parse).2 = 0 ∧
    (∃ msg, (analyze_research_landscape [] chat parse).1 = .error (.valueError msg)) ∧
    (analyze_research_landscape [] chat parse).2 = 0 :=
  ⟨⟨_, rfl⟩, rfl, ⟨_, rfl⟩, rfl⟩

/-! ## Multi-source fusion (`src/modules/multi_source_search.py`, claim C4)

`merge_and_deduplicate` flattens the per-source result dict in insertion
order into `(source, paper)` pairs and folds over them with three mutable
structures: the set of seen arXiv ids, the dict from normalized title to the
`(source, paper)` that claimed it, and the output list.  Note the arXiv-id
check (`if paper.arxiv_id: if paper.arxiv_id in seen_arxiv_ids: continue`)
runs *before* the title check and performs no source-priority comparison —
the first traversed record with a given id wins; only title-duplicates are
resolved by priority. -/

/-- `PaperMetadata` (src/models.py lines 56-75). -/
structure PaperMetadata where
  title : PyStr
  authors : List PyStr := []
  abstract : PyStr := []
  url : PyStr := []
  published : PyStr := []
  paperType : Option PaperType := none
  journal : Option PyStr := none
  relevanceScore : ℚ := 0
  arxivId : Option PyStr := none
  partitionLabel : Option PyStr := none
deriving DecidableEq

/-- The three accumulators of the dedup loop (lines 96-98). -/
structure DedupState where
  seenArxivIds : List PyStr
  seenTitles : List (PyStr × (PyStr × PaperMetadata))
  uniquePapers : List PaperMetadata

/-- `source_priority = {"arxiv": 3, "semantic_scholar": 2}` with default 1
(lines 115-118). -/
def sourcePriority (source : PyStr) : Nat :=
  if source = pystr "arxiv" then 3
  else if source = pystr "semantic_scholar" then 2
  else 1

/-- `seen_titles[title_norm] = (source, paper)`: dict assignment — overwrite
in place when the key exists, append otherwise. -/
def setTitle (ts : List (PyStr × (PyStr × PaperMetadata))) (k : PyStr)
    (v : PyStr × PaperMetadata) : List (PyStr × (PyStr × PaperMetadata)) :=
  if ts.any (fun kv => kv.1 == k) then
    ts.map (fun kv => if kv.1 == k then (k, v) else kv)
  else ts ++ [(k, v)]

/-- The title-deduplication phase of one loop iteration (lines 108-132): on a
title collision keep the higher-priority source (the replacement removes
every list entry structurally equal to the loser, as `p != existing_paper`
does); otherwise register the title and append the paper. -/
def titleDedupGo (st : DedupState) (source : PyStr) (paper : PaperMetadata)
    (tn : PyStr) : Option (PyStr × PaperMetadata) → DedupState
  | some (esrc, epaper) =>
    if sourcePriority source > sourcePriority esrc then
      { st with
        uniquePapers := st.uniquePapers.filter (fun p => p != epaper) ++ [paper],
        seenTitles := setTitle st.seenTitles tn (source, paper) }
    else st
  | none =>
    { st with
      seenTitles := st.seenTitles ++ [(tn, (source, paper))],
      uniquePapers := st.uniquePapers ++ [paper] }

/-- The title phase proper: normalize the title, look it up, dispatch. -/
def titleDedup (st : DedupState) (source : PyStr) (paper : PaperMetadata) : DedupState :=
  titleDedupGo st source paper (normalize_title paper.title)
    (st.seenTitles.lookup (normalize_title paper.title))

/-- The body of one loop iteration, dispatching on the paper's arXiv id. -/
def dedupStepGo (st : DedupState) (source : PyStr) (paper : PaperMetadata) :
    Option PyStr → DedupState
  | some aid =>
    if aid.isEmpty then titleDedup st source paper
    else if aid ∈ st.seenArxivIds then st
    else titleDedup { st with seenArxivIds := aid :: st.seenArxivIds } source paper
  | none => titleDedup st source paper

/-- One iteration of the dedup loop (lines 100-132).  `if paper.arxiv_id:`
is Python truthiness: `None` and the empty string skip the id check. -/
def dedupStep (st : DedupState) (sp : PyStr × PaperMetadata) : DedupState :=
  dedupStepGo st sp.1 sp.2 sp.2.arxivId

/-- The flattening of the per-source dict into `(source, paper)` pairs in
traversal order (lines 84-87). -/
def allSourcePairs (input : List (PyStr × List PaperMetadata)) :
    List (PyStr × PaperMetadata) :=
  input.flatMap (fun sp => sp.2.map (fun p => (sp.1, p)))

/-- `merge_and_deduplicate` (lines 71-136). -/
def merge_and_deduplicate (input : List (PyStr × List PaperMetadata)) :
    List PaperMetadata :=
  ((allSourcePairs input).foldl dedupStep
    { seenArxivIds := [], seenTitles := [], uniquePapers := [] }).uniquePapers

/-- A semantic-scholar record and an arXiv record sharing one arXiv id. -/
def paperS2 : PaperMetadata := { title := pystr "alpha", arxivId := some (pystr "2401.0001") }

/-- The same work as indexed by arXiv itself. -/
def paperAx : PaperMetadata := { title := pystr "beta", arxivId := some (pystr "2401.0001") }

/-- A fusion input whose dict iterates semantic_scholar before arxiv. -/
def inputC4 : List (PyStr × List PaperMetadata) :=
  [(pystr "semantic_scholar", [paperS2]), (pystr "arxiv", [paperAx])]

/-- **C4 (counterexample).** Two records with the same arXiv id, the
lower-priority source traversed first: fusion keeps the semantic-scholar
record and drops the arXiv one, although arXiv has the strictly higher
priority — the id-based dedup is first-wins, not priority-based. -/
theorem C4_counterexample :
    merge_and_deduplicate inputC4 = [paperS2] ∧
    paperAx ∉ merge_and_deduplicate inputC4 ∧
    sourcePriority (pystr "arxiv") > sourcePriority (pystr "semantic_scholar") := by
  refine ⟨rfl, ?_, by decide⟩
  rw [show merge_and_deduplicate inputC4 = [paperS2] from rfl]
  intro h
  rcases List.mem_singleton.1 h with h
  exact absurd (congrArg PaperMetadata.title h) (by decide)

/-! ### The arXiv-id invariant of the dedup fold -/

/-- The first paper bearing arXiv id `i` in a traversal-ordered pair list. -/
def findById (i : PyStr) (pairs : List (PyStr × PaperMetadata)) : Option PaperMetadata :=
  (pairs.map Prod.snd).find? (fun q => q.arxivId == some i)

/-- Invariant carried through the dedup fold: every output paper bearing a
(nonempty) arXiv id is the first traversed paper with that id; ids absent
from the seen-set have not been traversed; and no id occurs twice in the
output. -/
def IdInv (processed : List (PyStr × PaperMetadata)) (st : DedupState) : Prop :=
  (∀ i : PyStr, i ≠ [] → ∀ p ∈ st.uniquePapers, p.arxivId = some i →
    findById i processed = some p) ∧
  (∀ i : PyStr, i ≠ [] → i ∉ st.seenArxivIds → findById i processed = none) ∧
  (∀ i : PyStr, i ≠ [] →
    st.uniquePapers.countP (fun p => p.arxivId == some i) ≤ 1)

theorem findById_append_single (i : PyStr) (pre : List (PyStr × PaperMetadata))
    (sp : PyStr × PaperMetadata) :
    findById i (pre ++ [sp]) =
      (findById i pre).or (if sp.2.arxivId == some i then some sp.2 else none) := by
  unfold findById
  rw [List.map_append, List.find?_append]
  congr 1
  by_cases h : (sp.2.arxivId == some i) = true
  · rw [if_pos h]
    simp [List.find?_cons, h]
  · rw [if_neg h]
    simp [List.find?_cons, h]

/-- `titleDedupGo` never touches the seen-id set. -/
theorem titleDedupGo_seenArxivIds (st : DedupState) (src : PyStr) (paper : PaperMetadata)
    (tn : PyStr) (o : Option (PyStr × PaperMetadata)) :
    (titleDedupGo st src paper tn o).seenArxivIds = st.seenArxivIds := by
  cases o with
  | none => rfl
  | some v =>
    obtain ⟨esrc, epaper⟩ := v
    simp only [titleDedupGo]
    split <;> rfl

/-- `titleDedup` never touches the seen-id set. -/
theorem titleDedup_seenArxivIds (st : DedupState) (src : PyStr) (paper : PaperMetadata) :
    (titleDedup st src paper).seenArxivIds = st.seenArxivIds :=
  titleDedupGo_seenArxivIds st src paper _ _

/-- The three possible shapes of the output list after the title phase. -/
theorem titleDedupGo_uniquePapers (st : DedupState) (src : PyStr) (paper : PaperMetadata)
    (tn : PyStr) (o : Option (PyStr × PaperMetadata)) :
    (titleDedupGo st src paper tn o).uniquePapers = st.uniquePapers ∨
    (titleDedupGo st src paper tn o).uniquePapers = st.uniquePapers ++ [paper] ∨
    ∃ ep, (titleDedupGo st src paper tn o).uniquePapers =
      st.uniquePapers.filter (fun q => q != ep) ++ [paper] := by
  cases o with
  | none => right; left; rfl
  | some v =>
    obtain ⟨esrc, epaper⟩ := v
    simp only [titleDedupGo]
    split
    · right; right
      exact ⟨epaper, rfl⟩
    · left; rfl

/-- The three possible shapes of the output list after the title phase. -/
theorem titleDedup_uniquePapers (st : DedupState) (src : PyStr) (paper : PaperMetadata) :
    (titleDedup st src paper).uniquePapers = st.uniquePapers ∨
    (titleDedup st src paper).uniquePapers = st.uniquePapers ++ [paper] ∨
    ∃ ep, (titleDedup st src paper).uniquePapers =
      st.uniquePapers.filter (fun q => q != ep) ++ [paper] :=
  titleDedupGo_uniquePapers st src paper _ _

theorem uniqueRel_mem {u u' : List PaperMetadata} {paper p : PaperMetadata}
    (hu : u' = u ∨ u' = u ++ [paper] ∨
      ∃ ep, u' = u.filter (fun q => q != ep) ++ [paper])
    (hp : p ∈ u') : p ∈ u ∨ p = paper := by
  rcases hu with rfl | rfl | ⟨ep, rfl⟩
  · exact Or.inl hp
  · rcases List.mem_append.1 hp with h | h
    · exact Or.inl h
    · exact Or.inr (List.mem_singleton.1 h)
  · rcases List.mem_append.1 hp with h | h
    · exact Or.inl (List.mem_filter.1 h).1
    · exact Or.inr (List.mem_singleton.1 h)

theorem uniqueRel_countP {u u' : List PaperMetadata} {paper : PaperMetadata}
    (hu : u' = u ∨ u' = u ++ [paper] ∨
      ∃ ep, u' = u.filter (fun q => q != ep) ++ [paper])
    (pred : PaperMetadata → Bool) :
    u'.countP pred ≤ u.countP pred + (if pred paper then 1 else 0) := by
  rcases hu with rfl | rfl | ⟨ep, rfl⟩
  · exact Nat.le_add_right _ _
  · rw [List.countP_append]
    apply Nat.add_le_add_left
    by_cases h : pred paper = true <;> simp [List.countP_cons, h]
  · rw [List.countP_append]
    apply Nat.add_le_add
    · exact List.Sublist.countP_le _ (List.filter_sublist _)
    · by_cases h : pred paper = true <;> simp [List.countP_cons, h]

/-- Invariant step, inert case: the incoming paper has no effective arXiv id
(either `None` or the falsy empty string), so only the title phase runs. -/
theorem titleDedup_inv_inert {processed : List (PyStr × PaperMetadata)} {st : DedupState}
    (hInv : IdInv processed st) (src : PyStr) (paper : PaperMetadata)
    (hno : ∀ i : PyStr, i ≠ [] → (paper.arxivId == some i) = false) :
    IdInv (processed ++ [(src, paper)]) (titleDedup st src paper) := by
  obtain ⟨inv1, inv2, inv3⟩ := hInv
  have hQ := titleDedup_uniquePapers st src paper
  refine ⟨?_, ?_, ?_⟩
  · intro i hi p hp hpid
    rw [findById_append_single, hno i hi, if_neg (by simp)]
    rcases uniqueRel_mem hQ hp with h | rfl
    · rw [inv1 i hi p h hpid]
      rfl
    · exact absurd (beq_iff_eq.2 hpid) (by simp [hno i hi])
  · intro i hi hnotin
    rw [titleDedup_seenArxivIds] at hnotin
    rw [findById_append_single, hno i hi, if_neg (by simp), inv2 i hi hnotin]
    rfl
  · intro i hi
    calc (titleDedup st src paper).uniquePapers.countP (fun p => p.arxivId == some i)
        ≤ st.uniquePapers.countP (fun p => p.arxivId == some i) +
            (if (paper.arxivId == some i) then 1 else 0) := uniqueRel_countP hQ _
      _ ≤ 1 := by rw [hno i hi]; simpa using inv3 i hi

/-- Invariant step, fresh-id case: the incoming paper carries a nonempty
arXiv id not yet seen; it is recorded and the title phase runs. -/
theorem titleDedup_inv_fresh {processed : List (PyStr × PaperMetadata)} {st : DedupState}
    (hInv : IdInv processed st) (src : PyStr) (paper : PaperMetadata) (aid : PyStr)
    (hid : paper.arxivId = some aid) (hne : aid ≠ []) (hnotin : aid ∉ st.seenArxivIds) :
    IdInv (processed ++ [(src, paper)])
      (titleDedup { st with seenArxivIds := aid :: st.seenArxivIds } src paper) := by
  obtain ⟨inv1, inv2, inv3⟩ := hInv
  set st1 : DedupState := { st with seenArxivIds := aid :: st.seenArxivIds } with hst1
  have hQ := titleDedup_uniquePapers st1 src paper
  have hzero : st.uniquePapers.countP (fun p => p.arxivId == some aid) = 0 := by
    rw [List.countP_eq_zero]
    intro p hp hpid
    have h1 := inv1 aid hne p hp (beq_iff_eq.1 hpid)
    have h2 := inv2 aid hne hnotin
    rw [h1] at h2
    exact nomatch h2
  refine ⟨?_, ?_, ?_⟩
  · intro i hi p hp hpid
    rw [findById_append_single]
    rcases uniqueRel_mem hQ hp with h | rfl
    · rw [inv1 i hi p h hpid]
      rfl
    · have hia : i = aid := Option.some_inj.1 (hpid.symm.trans hid)
      subst hia
      rw [inv2 i hne hnotin, hpid]
      simp
  · intro i hi hnotin'
    rw [titleDedup_seenArxivIds] at hnotin'
    have hia : i ≠ aid := fun h => hnotin' (h ▸ List.mem_cons_self _ _)
    have hnotin'' : i ∉ st.seenArxivIds := fun h => hnotin' (List.mem_cons_of_mem _ h)
    rw [findById_append_single, inv2 i hi hnotin'', hid]
    rw [if_neg (by simp [Ne.symm hia])]
    rfl
  · intro i hi
    by_cases hia : i = aid
    · subst hia
      calc (titleDedup st1 src paper).uniquePapers.countP (fun p => p.arxivId == some i)
          ≤ st.uniquePapers.countP (fun p => p.arxivId == some i) +
              (if (paper.arxivId == some i) then 1 else 0) := uniqueRel_countP hQ _
        _ ≤ 1 := by rw [hzero]; split <;> omega
    · calc (titleDedup st1 src paper).uniquePapers.countP (fun p => p.arxivId == some i)
          ≤ st.uniquePapers.countP (fun p => p.arxivId == some i) +
              (if (paper.arxivId == some i) then 1 else 0) := uniqueRel_countP hQ _
        _ ≤ 1 := by
            rw [hid, if_neg (by simp [Ne.symm hia])]
            simpa using inv3 i hi

/-- One fold step preserves the invariant. -/
theorem dedupStep_inv {processed : List (PyStr × PaperMetadata)} {st : DedupState}
    (hInv : IdInv processed st) (sp : PyStr × PaperMetadata) :
    IdInv (processed ++ [sp]) (dedupStep st sp) := by
  obtain ⟨inv1, inv2, inv3⟩ := hInv
  show IdInv (processed ++ [(sp.1, sp.2)]) (dedupStepGo st sp.1 sp.2 sp.2.arxivId)
  cases hid : sp.2.arxivId with
  | none =>
    exact titleDedup_inv_inert ⟨inv1, inv2, inv3⟩ sp.1 sp.2
      (fun i hi => by rw [hid]; rfl)
  | some aid =>
    simp only [dedupStepGo]
    by_cases hemp : aid.isEmpty = true
    · rw [if_pos hemp]
      have haid : aid = [] := by
        cases aid with
        | nil => rfl
        | cons a as => exact nomatch hemp
      exact titleDedup_inv_inert ⟨inv1, inv2, inv3⟩ sp.1 sp.2
        (fun i hi => by
          rw [hid, haid, beq_eq_false_iff_ne]
          intro h
          exact hi (Option.some_inj.1 h).symm)
    · rw [if_neg hemp]
      have hne : aid ≠ [] := by
        intro h
        rw [h] at hemp
        exact hemp rfl
      by_cases hmem : aid ∈ st.seenArxivIds
      · rw [if_pos hmem]
        refine ⟨?_, ?_, inv3⟩
        · intro i hi p hp hpid
          rw [findById_append_single, inv1 i hi p hp hpid]
          rfl
        · intro i hi hnotin
          have hia : i ≠ aid := fun h => hnotin (h ▸ hmem)
          rw [findById_append_single, inv2 i hi hnotin, hid,
            if_neg (by simp [Ne.symm hia])]
          rfl
      · rw [if_neg hmem]
        exact titleDedup_inv_fresh ⟨inv1, inv2, inv3⟩ sp.1 sp.2 aid hid hne hmem

/-- The fold preserves the invariant along any pair list. -/
theorem foldl_dedupStep_inv :
    ∀ (l : List (PyStr × PaperMetadata)) (processed : List (PyStr × PaperMetadata))
      (st : DedupState), IdInv processed st →
      IdInv (processed ++ l) (l.foldl dedupStep st) := by
  intro l
  induction l with
  | nil => intro processed st h; simpa using h
  | cons x xs ih =>
    intro processed st h
    have hstep := dedupStep_inv h x
    have := ih (processed ++ [x]) (dedupStep st x) hstep
    simpa [List.append_assoc] using this

/-- **C4 (amended, confirmed).** Fusion output contains at most one record
per (nonempty) arXiv id, and the record retained for an id is the *first one
encountered in traversal order* over the per-source lists — not necessarily
the one from the highest-priority source (priority resolves only
title-duplicates). -/
theorem C4_amended_arxiv_dedup (input : List (PyStr × List PaperMetadata))
    (i : PyStr) (hi : i ≠ []) :
    (merge_and_deduplicate input).countP (fun p => p.arxivId == some i) ≤ 1 ∧
    ∀ p ∈ merge_and_deduplicate input, p.arxivId = some i →
      findById i (allSourcePairs input) = some p := by
  have hbase : IdInv [] { seenArxivIds := [], seenTitles := [], uniquePapers := [] } := by
    refine ⟨?_, ?_, ?_⟩
    · intro i hi p hp; exact absurd hp (List.not_mem_nil p)
    · intro i _ _; rfl
    · intro i _; exact Nat.zero_le 1
  have h := foldl_dedupStep_inv (allSourcePairs input) [] _ hbase
  rw [List.nil_append] at h
  obtain ⟨h1, _, h3⟩ := h
  exact ⟨h3 i hi, fun p hp hpid => h1 i hi p hp hpid⟩

/-- Witness for `C4_amended_arxiv_dedup` on the concrete two-source input. -/
theorem C4_amended_arxiv_dedup_witness :
    (merge_and_deduplicate inputC4).countP
        (fun p => p.arxivId == some (pystr "2401.0001")) ≤ 1 ∧
    ∀ p ∈ merge_and_deduplicate inputC4, p.arxivId = some (pystr "2401.0001") →
      findById (pystr "2401.0001") (allSourcePairs inputC4) = some p :=
  C4_amended_arxiv_dedup inputC4 (pystr "2401.0001") (by decide)

end AIResearcher
